import Mathlib

/-!
Verification of `newbot.py`, a Telegram coffee-price bot.

The development shallowly embeds the bot's pure logic:

* the subscriber persistence functions `load_subscribers` / `save_subscribers`
  (file contents modelled as a `FileState`, Python sets as `Finset ℤ`);
* the command handlers `start` and `unsubscribe` (their effect on the
  subscriber set, whether `save_subscribers` was invoked, and the reply text);
* the broadcast loop `send_daily_price` (the external `bot.send_message`
  capability modelled as a `Bool`-valued function, `false` meaning the call
  raised; the Python `for` loop over the subscriber set is modelled over an
  explicit iteration-order list);
* the fetch cascade `get_coffee_price` (network outcomes supplied as an
  environment `String → Nat → FetchOutcome` giving the result of each
  `yf.Ticker(...).history(...)` call per ticker symbol and attempt index, and
  a `FallbackOutcome` for the single direct `requests.get` fallback).

Floating-point arithmetic of the source is modelled over `ℚ`; the cascade
functions additionally return the list of attempt events, mirroring the
source's per-attempt log lines (`logger.info` before every ticker attempt and
before the fallback request).
-/

/-! ## Subscriber persistence (`load_subscribers` / `save_subscribers`) -/

/-- The state of the `subscribers.json` file as seen by `json.load`:
absent (opening raises `FileNotFoundError`), present but not valid JSON
(`json.load` raises), or a well-formed JSON list of integers. -/
inductive FileState where
  | absent : FileState
  | malformed : FileState
  | json (ids : List ℤ) : FileState
deriving DecidableEq

/-- Result of loading the subscriber file: a set of ids, or a propagated
exception (which at module import time is a startup fault). -/
inductive LoadResult where
  | ok (subs : Finset ℤ) : LoadResult
  | startupError : LoadResult
deriving DecidableEq

/-- `load_subscribers` from the source: `set(json.load(f))` with
`FileNotFoundError` caught and mapped to the empty set; a malformed file
makes `json.load` raise, and nothing catches that. -/
def load_subscribers : FileState → LoadResult
  | .absent => .ok ∅
  | .malformed => .startupError
  | .json ids => .ok ids.toFinset

/-- `save_subscribers` from the source: `json.dump(list(subs), f)` writes the
set out as a flat list (in some enumeration order; modelled as sorted). -/
def save_subscribers (subs : Finset ℤ) : FileState :=
  .json (subs.sort (· ≤ ·))

/-! ## Command handlers (`start`, `unsubscribe`) -/

/-- Observable outcome of one handler invocation: the new in-memory
subscriber set, whether `save_subscribers` was called, and the reply text. -/
structure HandlerResult where
  subscribers : Finset ℤ
  saved : Bool
  reply : String
deriving DecidableEq

/-- The `/start` reply text (source line 141). -/
def WELCOME_MSG : String :=
  "Welcome! You've been subscribed to daily coffee price updates. Use /coffeeprice to get the latest coffee price.\nUse /unsubscribe to stop receiving daily updates."

/-- The `/unsubscribe` reply when the id was subscribed. -/
def UNSUB_OK_MSG : String := "You've been unsubscribed from daily updates."

/-- The `/unsubscribe` reply when the id was not subscribed. -/
def NOT_SUB_MSG : String := "You're not currently subscribed to updates."

/-- The `/start` handler: `subscribers.add(chat_id)`, then unconditionally
`save_subscribers(subscribers)`, then one fixed reply. -/
def start (subscribers : Finset ℤ) (chat_id : ℤ) : HandlerResult :=
  { subscribers := insert chat_id subscribers
    saved := true
    reply := WELCOME_MSG }

/-- The `/unsubscribe` handler: remove and save only when the id is present;
otherwise reply that the caller is not subscribed, with no write. -/
def unsubscribe (subscribers : Finset ℤ) (chat_id : ℤ) : HandlerResult :=
  if chat_id ∈ subscribers then
    { subscribers := subscribers.erase chat_id
      saved := true
      reply := UNSUB_OK_MSG }
  else
    { subscribers := subscribers
      saved := false
      reply := NOT_SUB_MSG }

/-! ## Broadcast loop (`send_daily_price`) -/

/-- The `for chat_id in subscribers: await bot.send_message(...)` loop of
`send_daily_price`. `send c = false` models `bot.send_message` raising for
chat id `c`; the list is the set's iteration order. Returns the chat ids for
which a send was attempted, in order, and `true` iff the loop completed
without an exception escaping. There is no `try`/`except` around the send in
the source, so a raising send ends the loop at once. -/
def send_daily_price (send : ℤ → Bool) : List ℤ → List ℤ × Bool
  | [] => ([], true)
  | c :: cs =>
    if send c then
      ((c :: (send_daily_price send cs).1), (send_daily_price send cs).2)
    else
      ([c], false)

/-! ## Theorems: subscriber store and handlers -/

/-- Claim C9: loading with the persistence file absent yields the empty set
and no error, while a present but malformed file propagates the decode
exception — a startup fault, not a set. -/
theorem load_subscribers_absent_and_malformed :
    load_subscribers .absent = .ok ∅ ∧
    load_subscribers .malformed = .startupError := by
  constructor <;> rfl

/-- Claim C8: saving any subscriber set and loading it back yields an equal
set, and loading is insensitive to the order in which ids were serialized
(any permutation of the stored list loads to the same set). -/
theorem save_load_roundtrip :
    (∀ s : Finset ℤ, load_subscribers (save_subscribers s) = .ok s) ∧
    (∀ l₁ l₂ : List ℤ, l₁.Perm l₂ →
      load_subscribers (.json l₁) = load_subscribers (.json l₂)) := by
  constructor
  · intro s
    simp [load_subscribers, save_subscribers, Finset.sort_toFinset]
  · intro l₁ l₂ hperm
    simp [load_subscribers, List.toFinset_eq_of_perm l₁ l₂ hperm]

/-- Witness for C8 at concrete inputs. -/
theorem save_load_roundtrip_witness :
    load_subscribers (save_subscribers {1, 2, 3}) = .ok {1, 2, 3} ∧
    ([2, 1] : List ℤ).Perm [1, 2] ∧
    load_subscribers (.json [2, 1]) = load_subscribers (.json [1, 2]) :=
  ⟨save_load_roundtrip.1 {1, 2, 3}, by decide,
    save_load_roundtrip.2 [2, 1] [1, 2] (by decide)⟩

/-- Claim C7: `/unsubscribe` for an id that is not in the subscriber set
leaves the set unchanged, performs no persistence write, and replies with the
distinct not-subscribed text. -/
theorem unsubscribe_absent_id (s : Finset ℤ) (id : ℤ) (h : id ∉ s) :
    unsubscribe s id =
      { subscribers := s, saved := false, reply := NOT_SUB_MSG } ∧
    NOT_SUB_MSG ≠ UNSUB_OK_MSG := by
  refine ⟨?_, by decide⟩
  simp [unsubscribe, h]

/-- Witness for C7 at a concrete absent id. -/
theorem unsubscribe_absent_id_witness :
    (5 : ℤ) ∉ (∅ : Finset ℤ) ∧
    unsubscribe ∅ 5 =
      { subscribers := ∅, saved := false, reply := NOT_SUB_MSG } :=
  ⟨by decide, (unsubscribe_absent_id ∅ 5 (by decide)).1⟩

/-- Counterexample to claim C6 as stated: after subscribing id 42 once,
a second `/start` with id 42 still calls `save_subscribers` (`saved = true`)
even though the set did not change, and its reply is identical to the
first call's reply — persistence is not "written only on change" and the
second call reports nothing distinct. -/
theorem start_second_call_still_saves :
    (start (start ∅ 42).subscribers 42).subscribers =
      (start ∅ 42).subscribers ∧
    (start (start ∅ 42).subscribers 42).saved = true ∧
    (start (start ∅ 42).subscribers 42).reply = (start ∅ 42).reply := by
  refine ⟨?_, rfl, rfl⟩
  simp [start]

/-- Claim C6, amended: `/start` is idempotent on the subscriber set — adding
the same id twice leaves the set (hence its size) unchanged after the second
call — but the handler gives no indication that the id was already present
(the reply is the same fixed text) and `save_subscribers` is invoked on every
call, not only on change. -/
theorem start_idempotent_but_always_saves (s : Finset ℤ) (id : ℤ) :
    (start (start s id).subscribers id).subscribers =
      (start s id).subscribers ∧
    (start (start s id).subscribers id).subscribers.card =
      (start s id).subscribers.card ∧
    (start (start s id).subscribers id).saved = true ∧
    (start (start s id).subscribers id).reply = (start s id).reply := by
  refine ⟨?_, ?_, rfl, rfl⟩
  · simp [start]
  · simp [start]

/-- Claim C10: `/start` with an already-subscribed chat id leaves the set
unchanged, still rewrites the persistence file, and replies with text
identical to the reply any first-time subscriber receives. -/
theorem start_resubscribe_indistinguishable (s : Finset ℤ) (id : ℤ)
    (h : id ∈ s) :
    (start s id).subscribers = s ∧
    (start s id).saved = true ∧
    ∀ (s' : Finset ℤ) (id' : ℤ), (start s id).reply = (start s' id').reply := by
  refine ⟨?_, rfl, fun _ _ => rfl⟩
  simp [start, Finset.insert_eq_self.mpr h]

/-- Witness for C10 at a concrete already-subscribed id. -/
theorem start_resubscribe_indistinguishable_witness :
    (7 : ℤ) ∈ ({7} : Finset ℤ) ∧
    (start {7} 7).subscribers = {7} ∧ (start {7} 7).saved = true :=
  ⟨by decide, (start_resubscribe_indistinguishable {7} 7 (by decide)).1,
    (start_resubscribe_indistinguishable {7} 7 (by decide)).2.1⟩

/-- Claim C1, evaluated at the failing input: with subscribers iterated as
`[1, 2, 3]` and `bot.send_message` raising for chat id 2, the broadcast loop
attempts only recipients 1 and 2, the exception escapes (`false`), and
recipient 3 is never attempted — contrary to the claimed isolation and
`attempted=3, succeeded=2, failed=1` report (no report exists in the code). -/
theorem send_daily_price_aborts_on_failure :
    send_daily_price (fun c => !(c == 2)) [1, 2, 3] = ([1, 2], false) ∧
    (3 : ℤ) ∉ (send_daily_price (fun c => !(c == 2)) [1, 2, 3]).1 := by
  constructor <;> decide

/-! ## Price fetch cascade (`get_coffee_price`) -/

/-- A calendar date, as carried by the pandas history index. -/
structure Date where
  year : Nat
  month : Nat
  day : Nat
deriving DecidableEq

/-- Zero-padded two-digit rendering, as `strftime` pads `%m` and `%d`. -/
def pad2 (n : Nat) : String :=
  if n < 10 then "0" ++ toString n else toString n

/-- Zero-padded four-digit rendering, as `strftime` pads `%Y`. -/
def pad4 (n : Nat) : String :=
  if n < 10 then "000" ++ toString n
  else if n < 100 then "00" ++ toString n
  else if n < 1000 then "0" ++ toString n
  else toString n

/-- `strftime("%Y-%m-%d")` on a date. -/
def formatDate (d : Date) : String :=
  pad4 d.year ++ "-" ++ pad2 d.month ++ "-" ++ pad2 d.day

/-- Outcome of one `yf.Ticker(ticker).history(period="7d")` call: the rows of
the result (history index date paired with the `Close` value, possibly
empty), or a raised exception. -/
inductive FetchOutcome where
  | ok (rows : List (Date × ℚ)) : FetchOutcome
  | error : FetchOutcome
deriving DecidableEq

/-- The price sample one attempt extracts, if any: the source checks
`not data.empty`, `"Close" in data.columns` and `len(data["Close"]) > 0`,
then takes `data["Close"].iloc[-1]` and `data.index[-1]` — the last row. -/
def sampleOf : FetchOutcome → Option (Date × ℚ)
  | .ok rows => rows.getLast?
  | .error => none

/-- An attempt fails when it raises or yields no usable price row; the
source then just moves on to the next attempt. -/
def attemptFails (o : FetchOutcome) : Bool :=
  (sampleOf o).isNone

/-- `MAX_RETRIES = 3` (source line 52). -/
def MAX_RETRIES : Nat := 3

/-- `ticker_symbols = ["KC=F", "COFFEE_F", "JO"]` (source line 53). -/
def ticker_symbols : List String := ["KC=F", "COFFEE_F", "JO"]

/-- The fixed pound-to-kilogram conversion constant (source lines 85, 111). -/
def POUND_TO_KG : ℚ := 2.20462

/-- Per-symbol normalization: `KC=F` is quoted in cents so its raw value is
divided by 100; the other symbols are taken as-is; then per-pound is
converted to per-kilogram. -/
def convertPrice (ticker : String) (price_per_pound : ℚ) : ℚ :=
  (if ticker = "KC=F" then price_per_pound / 100 else price_per_pound)
    * POUND_TO_KG

/-- One attempt event of the cascade, as logged by the source: a ticker
attempt (`logger.info` at line 63, with the ticker and attempt index) or the
single direct-endpoint fallback attempt (`logger.info` at line 100). -/
inductive Event where
  | symbolAttempt (ticker : String) (attempt : Nat) : Event
  | fallbackAttempt : Event
deriving DecidableEq

/-- Structured content of `get_coffee_price`'s return string: a quote with
its per-kilogram price and formatted trading date, or the fixed unavailable
sentinel. -/
inductive CoffeeMsg where
  | quote (price_per_kg : ℚ) (date : String) : CoffeeMsg
  | unavailable : CoffeeMsg
deriving DecidableEq

/-- The fixed sentinel text returned when cascade and fallback are both
exhausted (source line 122). -/
def UNAVAILABLE_MSG : String :=
  "Could not fetch coffee price. Please try again later."

/-- Three-decimal rendering of a nonnegative rational, modelling the
`f"{price_per_kg:.3f}"` format (rounding half up; the claims below do not
depend on tie behaviour). -/
def formatPrice3 (q : ℚ) : String :=
  let m : ℤ := ⌊q * 1000 + 1 / 2⌋
  let frac := (m % 1000).toNat
  toString (m / 1000) ++ "." ++
    (if frac < 10 then "00" ++ toString frac
     else if frac < 100 then "0" ++ toString frac
     else toString frac)

/-- The message text `get_coffee_price` returns for each structured result
(source lines 89, 118, 122). -/
def renderMsg : CoffeeMsg → String
  | .quote p d => "☕ Coffee Price (as of " ++ d ++ "): $" ++ formatPrice3 p ++ " per kg"
  | .unavailable => UNAVAILABLE_MSG

/-- The inner `for attempt in range(MAX_RETRIES)` loop for one ticker,
started at attempt index `i` with `k` attempts remaining: each attempt asks
the environment for its fetch outcome; a usable sample returns the
normalized quote at once, anything else falls through to the next attempt.
Returns the attempt events in order and the quote, if any. -/
def attemptLoop (env : String → Nat → FetchOutcome) (ticker : String) :
    Nat → Nat → List Event × Option CoffeeMsg
  | 0, _ => ([], none)
  | k + 1, i =>
    match sampleOf (env ticker i) with
    | some (d, c) =>
      ([.symbolAttempt ticker i],
        some (.quote (convertPrice ticker c) (formatDate d)))
    | none =>
      (.symbolAttempt ticker i :: (attemptLoop env ticker k (i + 1)).1,
        (attemptLoop env ticker k (i + 1)).2)

/-- The outer `for ticker in ticker_symbols` loop: run the retry loop for
each ticker in order; a successful ticker returns its quote at once,
otherwise move to the next ticker. -/
def cascadeLoop (env : String → Nat → FetchOutcome) :
    List String → List Event × Option CoffeeMsg
  | [] => ([], none)
  | t :: ts =>
    match (attemptLoop env t MAX_RETRIES 0).2 with
    | some m => ((attemptLoop env t MAX_RETRIES 0).1, some m)
    | none =>
      ((attemptLoop env t MAX_RETRIES 0).1 ++ (cascadeLoop env ts).1,
        (cascadeLoop env ts).2)

/-- Outcome of the single direct `requests.get` fallback against the `KC=F`
chart endpoint: a 200 response whose JSON carries
`chart.result[0].meta.regularMarketPrice` (with the formatted market-time
date), or any failure (non-200, missing fields, or a raised exception). -/
inductive FallbackOutcome where
  | ok (regularMarketPrice : ℚ) (date : String) : FallbackOutcome
  | fail : FallbackOutcome
deriving DecidableEq

/-- The fallback body: on success the raw price is in cents, so it is
divided by 100 and converted per kilogram; on failure the function reaches
its final `return` of the sentinel. -/
def runFallback : FallbackOutcome → CoffeeMsg
  | .ok price date => .quote ((price / 100) * POUND_TO_KG) date
  | .fail => .unavailable

/-- `get_coffee_price`: the full cascade over `ticker_symbols`, then, only
when no symbol attempt succeeded, the one-shot direct fallback. Returns the
attempt events and the structured message. -/
def get_coffee_price (env : String → Nat → FetchOutcome)
    (fb : FallbackOutcome) : List Event × CoffeeMsg :=
  match (cascadeLoop env ticker_symbols).2 with
  | some m => ((cascadeLoop env ticker_symbols).1, m)
  | none =>
    ((cascadeLoop env ticker_symbols).1 ++ [Event.fallbackAttempt],
      runFallback fb)

/-- The reply text of `get_coffee_price`. -/
def get_coffee_price_msg (env : String → Nat → FetchOutcome)
    (fb : FallbackOutcome) : String :=
  renderMsg (get_coffee_price env fb).2

/-! ## Structural lemmas about the cascade -/

/-- Whether an event is an attempt of the given ticker symbol. -/
def isAttemptOf (t : String) : Event → Bool
  | .symbolAttempt tickerOfEvent _ => tickerOfEvent == t
  | .fallbackAttempt => false

theorem attemptLoop_length (env : String → Nat → FetchOutcome) (t : String) :
    ∀ k i, (attemptLoop env t k i).1.length ≤ k := by
  intro k
  induction k with
  | zero => intro i; simp [attemptLoop]
  | succ k ih =>
    intro i
    rcases hs : sampleOf (env t i) with _ | ⟨d, c⟩ <;> simp [attemptLoop, hs]
    exact Nat.le_trans (ih (i + 1)) (by omega)

theorem attemptLoop_mem (env : String → Nat → FetchOutcome) (t : String) :
    ∀ k i, ∀ e ∈ (attemptLoop env t k i).1,
      ∃ j, i ≤ j ∧ j < i + k ∧ e = Event.symbolAttempt t j := by
  intro k
  induction k with
  | zero => intro i e he; simp [attemptLoop] at he
  | succ k ih =>
    intro i e he
    rcases hs : sampleOf (env t i) with _ | ⟨d, c⟩ <;>
      simp [attemptLoop, hs] at he
    · rcases he with rfl | he
      · exact ⟨i, by omega, by omega, rfl⟩
      · obtain ⟨j, h₁, h₂, h₃⟩ := ih (i + 1) e he
        exact ⟨j, by omega, by omega, h₃⟩
    · exact ⟨i, by omega, by omega, he⟩

theorem attemptLoop_success_getLast (env : String → Nat → FetchOutcome)
    (tickerArg t : String) :
    ∀ k i j, Event.symbolAttempt t j ∈ (attemptLoop env tickerArg k i).1 →
      attemptFails (env t j) = false →
      (attemptLoop env tickerArg k i).1.getLast? =
        some (Event.symbolAttempt t j) ∧
      (attemptLoop env tickerArg k i).2.isSome = true := by
  intro k
  induction k with
  | zero => intro i j hmem _; simp [attemptLoop] at hmem
  | succ k ih =>
    intro i j hmem hsucc
    rcases hs : sampleOf (env tickerArg i) with _ | ⟨d, c⟩
    · simp only [attemptLoop, hs] at hmem ⊢
      rcases List.mem_cons.mp hmem with heq | htail
      · obtain ⟨rfl, rfl⟩ : tickerArg = t ∧ i = j := by
          cases heq; exact ⟨rfl, rfl⟩
        rw [attemptFails, hs] at hsucc
        simp at hsucc
      · have := ih (i + 1) j htail hsucc
        have hne : (attemptLoop env tickerArg k (i + 1)).1 ≠ [] :=
          List.ne_nil_of_mem htail
        constructor
        · rw [show (Event.symbolAttempt tickerArg i ::
              (attemptLoop env tickerArg k (i + 1)).1) =
              [Event.symbolAttempt tickerArg i] ++
              (attemptLoop env tickerArg k (i + 1)).1 from rfl,
            List.getLast?_append, this.1]
          rfl
        · exact this.2
    · simp only [attemptLoop, hs] at hmem ⊢
      simp at hmem
      simp [hmem]

theorem attemptLoop_none_iff (env : String → Nat → FetchOutcome) (t : String) :
    ∀ k i, (attemptLoop env t k i).2 = none ↔
      ∀ j, j < k → attemptFails (env t (i + j)) = true := by
  intro k
  induction k with
  | zero => intro i; simp [attemptLoop]
  | succ k ih =>
    intro i
    rcases hs : sampleOf (env t i) with _ | ⟨d, c⟩
    · simp only [attemptLoop, hs]
      rw [ih (i + 1)]
      constructor
      · intro h j hj
        rcases j with _ | j
        · simp [attemptFails, hs]
        · have := h j (by omega)
          simpa [Nat.add_comm, Nat.add_assoc, Nat.add_left_comm] using this
      · intro h j hj
        have := h (j + 1) (by omega)
        simpa [Nat.add_comm, Nat.add_assoc, Nat.add_left_comm] using this
    · simp only [attemptLoop, hs]
      constructor
      · intro h; cases h
      · intro h
        have := h 0 (by omega)
        rw [Nat.add_zero, attemptFails, hs] at this
        simp at this

theorem attemptLoop_first_success (env : String → Nat → FetchOutcome)
    (t : String) :
    ∀ n k i (d : Date) (c : ℚ), n < k →
      (∀ j, j < n → attemptFails (env t (i + j)) = true) →
      sampleOf (env t (i + n)) = some (d, c) →
      (attemptLoop env t k i).2 =
        some (.quote (convertPrice t c) (formatDate d)) := by
  intro n
  induction n with
  | zero =>
    intro k i d c hk hfail hs
    obtain ⟨k', rfl⟩ : ∃ k', k = k' + 1 := ⟨k - 1, by omega⟩
    rw [Nat.add_zero] at hs
    simp [attemptLoop, hs]
  | succ n ih =>
    intro k i d c hk hfail hs
    obtain ⟨k', rfl⟩ : ∃ k', k = k' + 1 := ⟨k - 1, by omega⟩
    have h0 : attemptFails (env t i) = true := by
      simpa using hfail 0 (by omega)
    have hnone : sampleOf (env t i) = none := by
      rw [attemptFails] at h0
      exact Option.isNone_iff_eq_none.mp h0
    simp only [attemptLoop, hnone]
    apply ih k' (i + 1) d c (by omega)
    · intro j hj
      have := hfail (j + 1) (by omega)
      simpa [Nat.add_comm, Nat.add_assoc, Nat.add_left_comm] using this
    · have : i + 1 + n = i + (n + 1) := by omega
      rw [this]
      exact hs

theorem cascadeLoop_mem (env : String → Nat → FetchOutcome) :
    ∀ ts : List String, ∀ e ∈ (cascadeLoop env ts).1,
      ∃ t ∈ ts, ∃ j, j < MAX_RETRIES ∧ e = Event.symbolAttempt t j := by
  intro ts
  induction ts with
  | nil => intro e he; simp [cascadeLoop] at he
  | cons t ts ih =>
    intro e he
    rcases hA : (attemptLoop env t MAX_RETRIES 0).2 with _ | m <;>
      simp only [cascadeLoop, hA] at he
    · rcases List.mem_append.mp he with hl | hr
      · obtain ⟨j, _, h₂, h₃⟩ := attemptLoop_mem env t MAX_RETRIES 0 e hl
        exact ⟨t, by simp, j, by omega, h₃⟩
      · obtain ⟨t', ht', j, hj, h₃⟩ := ih e hr
        exact ⟨t', by simp [ht'], j, hj, h₃⟩
    · obtain ⟨j, _, h₂, h₃⟩ := attemptLoop_mem env t MAX_RETRIES 0 e he
      exact ⟨t, by simp, j, by omega, h₃⟩

theorem cascadeLoop_no_fallback (env : String → Nat → FetchOutcome)
    (ts : List String) : Event.fallbackAttempt ∉ (cascadeLoop env ts).1 := by
  intro hmem
  obtain ⟨t, _, j, _, h⟩ := cascadeLoop_mem env ts Event.fallbackAttempt hmem
  cases h

theorem cascadeLoop_none_iff (env : String → Nat → FetchOutcome) :
    ∀ ts : List String, (cascadeLoop env ts).2 = none ↔
      ∀ t ∈ ts, (attemptLoop env t MAX_RETRIES 0).2 = none := by
  intro ts
  induction ts with
  | nil => simp [cascadeLoop]
  | cons t ts ih =>
    rcases hA : (attemptLoop env t MAX_RETRIES 0).2 with _ | m <;>
      simp only [cascadeLoop, hA]
    · simp only [List.mem_cons]
      constructor
      · intro h t' ht'
        rcases ht' with rfl | ht'
        · exact hA
        · exact (ih.mp h) t' ht'
      · intro h
        exact ih.mpr fun t' ht' => h t' (Or.inr ht')
    · constructor
      · intro h; cases h
      · intro h
        have := h t (by simp)
        rw [hA] at this
        cases this

theorem cascadeLoop_success_getLast (env : String → Nat → FetchOutcome) :
    ∀ (ts : List String) (t : String) (j : Nat),
      Event.symbolAttempt t j ∈ (cascadeLoop env ts).1 →
      attemptFails (env t j) = false →
      (cascadeLoop env ts).1.getLast? = some (Event.symbolAttempt t j) ∧
      (cascadeLoop env ts).2.isSome = true := by
  intro ts
  induction ts with
  | nil => intro t j hmem _; simp [cascadeLoop] at hmem
  | cons t' ts ih =>
    intro t j hmem hsucc
    rcases hA : (attemptLoop env t' MAX_RETRIES 0).2 with _ | m <;>
      simp only [cascadeLoop, hA] at hmem ⊢
    · rcases List.mem_append.mp hmem with hl | hr
      · have := attemptLoop_success_getLast env t' t MAX_RETRIES 0 j hl hsucc
        rw [hA] at this
        cases this.2
      · have := ih t j hr hsucc
        have hne : (cascadeLoop env ts).1 ≠ [] := List.ne_nil_of_mem hr
        refine ⟨?_, this.2⟩
        rw [List.getLast?_append, this.1]
        rfl
    · exact ⟨(attemptLoop_success_getLast env t' t MAX_RETRIES 0 j hmem
        hsucc).1, rfl⟩

theorem attemptLoop_filter_ne (env : String → Nat → FetchOutcome)
    (tickerArg t : String) (k i : Nat) (h : tickerArg ≠ t) :
    (attemptLoop env tickerArg k i).1.filter (isAttemptOf t) = [] := by
  rw [List.filter_eq_nil_iff]
  intro e he
  obtain ⟨j, _, _, rfl⟩ := attemptLoop_mem env tickerArg k i e he
  simp [isAttemptOf, h]

theorem cascadeLoop_filter_not_mem (env : String → Nat → FetchOutcome)
    (ts : List String) (t : String) (h : t ∉ ts) :
    (cascadeLoop env ts).1.filter (isAttemptOf t) = [] := by
  rw [List.filter_eq_nil_iff]
  intro e he
  obtain ⟨t', ht', j, _, rfl⟩ := cascadeLoop_mem env ts e he
  have : t' ≠ t := fun heq => h (heq ▸ ht')
  simp [isAttemptOf, this]

theorem cascadeLoop_filter_length (env : String → Nat → FetchOutcome) :
    ∀ ts : List String, ts.Nodup → ∀ t : String,
      ((cascadeLoop env ts).1.filter (isAttemptOf t)).length ≤ MAX_RETRIES := by
  intro ts
  induction ts with
  | nil => intro _ t; simp [cascadeLoop, MAX_RETRIES]
  | cons t' ts ih =>
    intro hnodup t
    have hnodup' := List.nodup_cons.mp hnodup
    rcases hA : (attemptLoop env t' MAX_RETRIES 0).2 with _ | m <;>
      simp only [cascadeLoop, hA]
    · rw [List.filter_append, List.length_append]
      by_cases heq : t' = t
      · subst heq
        have h1 : ((attemptLoop env t' MAX_RETRIES 0).1.filter
            (isAttemptOf t')).length ≤ MAX_RETRIES :=
          Nat.le_trans (List.length_filter_le _ _)
            (attemptLoop_length env t' MAX_RETRIES 0)
        have h2 : (cascadeLoop env ts).1.filter (isAttemptOf t') = [] :=
          cascadeLoop_filter_not_mem env ts t' hnodup'.1
        rw [h2]
        simpa using h1
      · rw [attemptLoop_filter_ne env t' t MAX_RETRIES 0 heq]
        simpa using ih hnodup'.2 t
    · exact Nat.le_trans (List.length_filter_le _ _)
        (attemptLoop_length env t' MAX_RETRIES 0)

theorem cascadeLoop_first_success (env : String → Nat → FetchOutcome) :
    ∀ (pre : List String) (t : String) (post : List String) (m : CoffeeMsg),
      (∀ t' ∈ pre, (attemptLoop env t' MAX_RETRIES 0).2 = none) →
      (attemptLoop env t MAX_RETRIES 0).2 = some m →
      (cascadeLoop env (pre ++ t :: post)).2 = some m := by
  intro pre
  induction pre with
  | nil =>
    intro t post m _ hA
    simp [cascadeLoop, hA]
  | cons p pre ih =>
    intro t post m hpre hA
    have hp : (attemptLoop env p MAX_RETRIES 0).2 = none :=
      hpre p (by simp)
    simp only [List.cons_append, cascadeLoop, hp]
    exact ih t post m (fun t' ht' => hpre t' (by simp [ht'])) hA

theorem cascadeLoop_none_iff_allfail (env : String → Nat → FetchOutcome) :
    (cascadeLoop env ticker_symbols).2 = none ↔
      ∀ t ∈ ticker_symbols, ∀ i, i < MAX_RETRIES →
        attemptFails (env t i) = true := by
  rw [cascadeLoop_none_iff]
  constructor
  · intro h t ht i hi
    have := (attemptLoop_none_iff env t MAX_RETRIES 0).mp (h t ht) i hi
    simpa using this
  · intro h t ht
    rw [attemptLoop_none_iff]
    intro j hj
    simpa using h t ht j hj

/-! ## Theorems: the fetch cascade -/

/-- Claim C2: whenever the winning attempt of the cascade (the first attempt,
in cascade order, that does not fail) yields a non-empty well-formed history,
`get_coffee_price` returns a quote whose value is the raw last `Close`
value with the symbol's unit-conversion rule applied (division by 100 for
`KC=F`, identity otherwise) multiplied by the fixed pound-to-kilogram
constant, and whose date is the history's last timestamp formatted as
`YYYY-MM-DD`. -/
theorem fetch_normalizes_winning_sample (env : String → Nat → FetchOutcome)
    (fb : FallbackOutcome) (pre post : List String) (t : String) (n : Nat)
    (rows : List (Date × ℚ)) (d : Date) (c : ℚ)
    (hsyms : ticker_symbols = pre ++ t :: post)
    (hpre : ∀ t' ∈ pre, ∀ j, j < MAX_RETRIES → attemptFails (env t' j) = true)
    (hn : n < MAX_RETRIES)
    (hbefore : ∀ j, j < n → attemptFails (env t j) = true)
    (hok : env t n = FetchOutcome.ok rows)
    (hlast : rows.getLast? = some (d, c)) :
    (get_coffee_price env fb).2 =
      CoffeeMsg.quote ((if t = "KC=F" then c / 100 else c) * POUND_TO_KG)
        (formatDate d) := by
  have hsample : sampleOf (env t n) = some (d, c) := by
    rw [hok]; simpa [sampleOf] using hlast
  have hA : (attemptLoop env t MAX_RETRIES 0).2 =
      some (.quote (convertPrice t c) (formatDate d)) := by
    apply attemptLoop_first_success env t n MAX_RETRIES 0 d c hn
    · intro j hj; simpa using hbefore j hj
    · simpa using hsample
  have hpre' : ∀ t' ∈ pre, (attemptLoop env t' MAX_RETRIES 0).2 = none := by
    intro t' ht'
    rw [attemptLoop_none_iff]
    intro j hj
    simpa using hpre t' ht' j hj
  have hC : (cascadeLoop env ticker_symbols).2 =
      some (.quote (convertPrice t c) (formatDate d)) := by
    rw [hsyms]
    exact cascadeLoop_first_success env pre t post _ hpre' hA
  rw [get_coffee_price]
  simp only [hC]
  rw [convertPrice]

/-- Witness for C2: every attempt of every symbol returns a one-row history
with `Close = 340`; the cascade wins at `KC=F`, attempt 0, and the value is
`(340 / 100) * 2.20462` with the formatted date. -/
theorem fetch_normalizes_winning_sample_witness :
    (get_coffee_price
        (fun _ _ => FetchOutcome.ok [(⟨2025, 3, 7⟩, 340)])
        FallbackOutcome.fail).2 =
      CoffeeMsg.quote
        ((if "KC=F" = "KC=F" then (340 : ℚ) / 100 else 340) * POUND_TO_KG)
        (formatDate ⟨2025, 3, 7⟩) :=
  fetch_normalizes_winning_sample
    (fun _ _ => FetchOutcome.ok [(⟨2025, 3, 7⟩, 340)]) FallbackOutcome.fail
    [] ["COFFEE_F", "JO"] "KC=F" 0 [(⟨2025, 3, 7⟩, 340)] ⟨2025, 3, 7⟩ 340
    rfl (by simp) (by decide) (fun j hj => absurd hj (by omega)) rfl rfl

/-- Claim C3: when every attempt of every symbol fails and the direct
fallback fails too, `get_coffee_price` returns the unavailable sentinel and
its reply text is exactly the fixed sentinel string; moreover, on every
input the function totally evaluates to either the sentinel or a quote with
both fields present — it never raises and never yields a partial quote. -/
theorem fetch_unavailable_when_all_fail :
    (∀ env : String → Nat → FetchOutcome,
      (∀ t ∈ ticker_symbols, ∀ i, i < MAX_RETRIES →
        attemptFails (env t i) = true) →
      (get_coffee_price env .fail).2 = CoffeeMsg.unavailable ∧
      get_coffee_price_msg env .fail = UNAVAILABLE_MSG) ∧
    (∀ (env : String → Nat → FetchOutcome) (fb : FallbackOutcome),
      (get_coffee_price env fb).2 = CoffeeMsg.unavailable ∨
      ∃ p d, (get_coffee_price env fb).2 = CoffeeMsg.quote p d) := by
  constructor
  · intro env h
    have hC : (cascadeLoop env ticker_symbols).2 = none :=
      (cascadeLoop_none_iff_allfail env).mpr h
    have h1 : (get_coffee_price env .fail).2 = CoffeeMsg.unavailable := by
      rw [get_coffee_price]
      simp only [hC]
      rfl
    exact ⟨h1, by rw [get_coffee_price_msg, h1]; rfl⟩
  · intro env fb
    rcases hm : (get_coffee_price env fb).2 with _ | p
    · exact Or.inr ⟨_, _, rfl⟩
    · exact Or.inl rfl

/-- Witness for C3: every symbol attempt raises and the fallback fails. -/
theorem fetch_unavailable_when_all_fail_witness :
    (get_coffee_price (fun _ _ => FetchOutcome.error) .fail).2 =
      CoffeeMsg.unavailable ∧
    get_coffee_price_msg (fun _ _ => FetchOutcome.error) .fail =
      UNAVAILABLE_MSG :=
  fetch_unavailable_when_all_fail.1 (fun _ _ => FetchOutcome.error)
    (by decide)

/-- Claim C4: in every execution, each symbol contributes at most
`MAX_RETRIES = 3` attempt events, and a successful attempt (one whose fetch
outcome does not fail) is the last event of the whole execution: no further
retry of that symbol, no later symbol, and no fallback attempt follows. -/
theorem cascade_retry_budget_and_shortcircuit
    (env : String → Nat → FetchOutcome) (fb : FallbackOutcome) :
    (∀ t : String,
      ((get_coffee_price env fb).1.filter (isAttemptOf t)).length ≤
        MAX_RETRIES) ∧
    (∀ (t : String) (i : Nat),
      Event.symbolAttempt t i ∈ (get_coffee_price env fb).1 →
      attemptFails (env t i) = false →
      (get_coffee_price env fb).1.getLast? =
        some (Event.symbolAttempt t i) ∧
      Event.fallbackAttempt ∉ (get_coffee_price env fb).1) := by
  have hnodup : ticker_symbols.Nodup := by decide
  constructor
  · intro t
    rcases hC : (cascadeLoop env ticker_symbols).2 with _ | m <;>
      simp only [get_coffee_price, hC]
    · rw [List.filter_append, List.length_append]
      have h2 : ([Event.fallbackAttempt].filter (isAttemptOf t)).length = 0 := by
        simp [isAttemptOf]
      rw [h2]
      simpa using cascadeLoop_filter_length env ticker_symbols hnodup t
    · exact cascadeLoop_filter_length env ticker_symbols hnodup t
  · intro t i hmem hsucc
    rcases hC : (cascadeLoop env ticker_symbols).2 with _ | m <;>
      simp only [get_coffee_price, hC] at hmem ⊢
    · rcases List.mem_append.mp hmem with hl | hr
      · have := cascadeLoop_success_getLast env ticker_symbols t i hl hsucc
        rw [hC] at this
        cases this.2
      · simp at hr
    · have := cascadeLoop_success_getLast env ticker_symbols t i hmem hsucc
      exact ⟨this.1, cascadeLoop_no_fallback env ticker_symbols⟩

/-- Witness for C4: the first symbol's attempt 0 raises and attempt 1
succeeds; the successful attempt is the final event and no fallback runs. -/
theorem cascade_retry_budget_and_shortcircuit_witness :
    (get_coffee_price
        (fun _ i => if i = 1 then FetchOutcome.ok [(⟨2025, 1, 2⟩, 100)]
          else FetchOutcome.error) .fail).1.getLast? =
      some (Event.symbolAttempt "KC=F" 1) ∧
    Event.fallbackAttempt ∉
      (get_coffee_price
        (fun _ i => if i = 1 then FetchOutcome.ok [(⟨2025, 1, 2⟩, 100)]
          else FetchOutcome.error) .fail).1 :=
  (cascade_retry_budget_and_shortcircuit
    (fun _ i => if i = 1 then FetchOutcome.ok [(⟨2025, 1, 2⟩, 100)]
      else FetchOutcome.error) .fail).2 "KC=F" 1 (by decide) (by decide)

/-- Claim C5: the direct fallback endpoint is attempted at most once per
invocation, and it is attempted exactly when every symbol in the list has
had all of its `MAX_RETRIES` attempts fail. -/
theorem fallback_once_and_only_on_exhaustion
    (env : String → Nat → FetchOutcome) (fb : FallbackOutcome) :
    (get_coffee_price env fb).1.count Event.fallbackAttempt ≤ 1 ∧
    (Event.fallbackAttempt ∈ (get_coffee_price env fb).1 ↔
      ∀ t ∈ ticker_symbols, ∀ i, i < MAX_RETRIES →
        attemptFails (env t i) = true) := by
  have hzero : (cascadeLoop env ticker_symbols).1.count Event.fallbackAttempt
      = 0 :=
    List.count_eq_zero.mpr (cascadeLoop_no_fallback env ticker_symbols)
  rcases hC : (cascadeLoop env ticker_symbols).2 with _ | m <;>
    simp only [get_coffee_price, hC]
  · constructor
    · rw [List.count_append, hzero]
      simp
    · rw [← cascadeLoop_none_iff_allfail env, hC]
      simp
  · constructor
    · rw [hzero]; omega
    · rw [← cascadeLoop_none_iff_allfail env, hC]
      constructor
      · intro hmem
        exact absurd hmem (cascadeLoop_no_fallback env ticker_symbols)
      · intro h; cases h

/-- Witness for C5: every `KC=F` and `COFFEE_F` attempt raises and every
`JO` attempt returns an empty history; all retries are exhausted, so the
fallback attempt occurs. -/
theorem fallback_once_and_only_on_exhaustion_witness :
    Event.fallbackAttempt ∈
      (get_coffee_price
        (fun t _ => if t = "JO" then FetchOutcome.ok [] else FetchOutcome.error)
        .fail).1 :=
  (fallback_once_and_only_on_exhaustion
    (fun t _ => if t = "JO" then FetchOutcome.ok [] else FetchOutcome.error)
    .fail).2.mpr (by decide)
